import Mathlib

/-!
Shallow embedding of the mDNS/DNS-SD discovery engine of
`KLVR-no/bonjour-service` (`src/lib/browser.ts`).

The engine state (the `Browser` class fields that matter to discovery) is a
`BrowserState`; packet handling, `start`, `stop`, `update` and `expire` are
pure functions returning the new state together with the emitted lifecycle
events and the issued queries.  External collaborators whose sources are not
in the repository snapshot (DNS name equality, the TXT codec, the attribute
filter, the service-type name codec) are modelled from the specification and
marked as such on their doc comments.
-/

namespace Bonjour

/-- Decoded TXT key-value mapping: an association list of key/value pairs. -/
abbrev TxtMap := List (String × String)

/-- Modelled from the spec: DNS name equality used throughout record
matching (`utils/dns-equal`, not in the source snapshot); the spec phrases
every match as the record name being *equal* to the tracked name. -/
def dnsEqual (a b : String) : Bool := a == b

/-- Modelled from the spec: map equality of decoded TXT content, ignoring
key order (`utils/equal-txt` is not in the source snapshot). -/
def txtMapEq (a b : TxtMap) : Bool :=
  a.all (fun kv => b.lookup kv.1 == some kv.2) &&
  b.all (fun kv => a.lookup kv.1 == some kv.2)

/-- Modelled from the spec: the engine compares the candidate's possibly
absent decoded TXT mapping against the stored one; an absent mapping is not
equal to any present mapping. -/
def equalTxt (a : Option TxtMap) (b : TxtMap) : Bool :=
  match a with
  | some m => txtMapEq m b
  | none => false

/-- Modelled from the spec: the Attribute Filter (`utils/filter-service`,
not in the source snapshot).  A query pattern is a mapping of required
key-to-value pairs; absence of a pattern admits everything. -/
def filterServiceTxt (txt : Option TxtMap) (q : Option TxtMap) : Bool :=
  match q with
  | none => true
  | some pat => pat.all (fun kv => (txt.getD []).lookup kv.1 == some kv.2)

/-- Modelled from the spec: `utils/filter-txt` strips binary-valued keys
from the query pattern at configuration time; the model's TXT values are
all textual, so nothing is stripped. -/
def filterTxt (m : TxtMap) : TxtMap := m

/-- Modelled from the spec: the external TXT codec decodes a raw payload
into key-value form; record payloads are modelled already in decoded form,
so decoding is the identity. -/
def decodeAll (d : TxtMap) : TxtMap := d

/-- Result of parsing a dotted service-type name. -/
structure TypeInfo where
  name : String
  protocol : String
  subtype : Option String
  deriving Repr, DecidableEq

/-- Split a character list at every occurrence of a separator character
(the semantics of splitting a string on a one-character separator). -/
def chSplit (sep : Char) : List Char → List (List Char)
  | [] => [[]]
  | c :: rest =>
    match chSplit sep rest with
    | [] => [[]]
    | cur :: more =>
      if c == sep then [] :: cur :: more else (c :: cur) :: more

/-- The dotted labels of a DNS name. -/
def splitDots (s : String) : List String := (chSplit '.' s.data).map String.mk

/-- Join strings with a separator (the semantics of `Array.join` /
`String.intercalate`). -/
def joinWith (sep : String) : List String → String
  | [] => ""
  | [x] => x
  | x :: y :: xs => x ++ sep ++ joinWith sep (y :: xs)

/-- Does the first character list occur at the head of the second? -/
def leadsWith : List Char → List Char → Bool
  | [], _ => true
  | _ :: _, [] => false
  | p :: ps, c :: cs => p == c && leadsWith ps cs

/-- Does the first character list occur anywhere inside the second
(`String.prototype.includes`)? -/
def containsSeq (pat : List Char) : List Char → Bool
  | [] => leadsWith pat []
  | c :: cs => leadsWith pat (c :: cs) || containsSeq pat cs

/-- Strip the leading underscore of a DNS-SD label. -/
def stripLabel (s : String) : String :=
  if s.data.headD ' ' == '_' then String.mk s.data.tail else s

/-- Modelled from the spec: the Name Codec's parsing direction
(`service-types`, not in the source snapshot): a dotted form is either
`_<subtype>._sub._<name>._<protocol>` or `_<name>._<protocol>`. -/
def serviceToType (s : String) : TypeInfo :=
  let labels := splitDots s
  if labels.getD 1 "" == "_sub" then
    { name := stripLabel (labels.getD 2 "")
      protocol := stripLabel (labels.getD 3 "")
      subtype := some (stripLabel (labels.getD 0 "")) }
  else
    { name := stripLabel (labels.getD 0 "")
      protocol := stripLabel (labels.getD 1 "")
      subtype := none }

/-- Modelled from the spec: the Name Codec's printing direction, used for
query-name derivation: type `http` with protocol `tcp` becomes
`_http._tcp`. -/
def serviceToString (n p : String) : String := "_" ++ n ++ "._" ++ p

/-- `'.local'` (browser.ts line 11). -/
def TLD : String := ".local"

/-- The wildcard meta-service name (browser.ts line 12). -/
def WILDCARD : String := "_services._dns-sd._udp" ++ TLD

/-- The payload of a DNS resource record, by record type. -/
inductive RData where
  | ptr (data : String)
  | srv (target : String) (port : Nat)
  | txt (data : TxtMap)
  | a (data : String)
  | aaaa (data : String)
  deriving Repr, DecidableEq

/-- A DNS resource record as consumed by the engine. -/
structure RR where
  name : String
  ttl : Nat
  rdata : RData
  deriving Repr, DecidableEq

def RR.isPTR (rr : RR) : Bool :=
  match rr.rdata with | .ptr _ => true | _ => false

def RR.isSRV (rr : RR) : Bool :=
  match rr.rdata with | .srv _ _ => true | _ => false

def RR.isTXT (rr : RR) : Bool :=
  match rr.rdata with | .txt _ => true | _ => false

def RR.isAddr (rr : RR) : Bool :=
  match rr.rdata with | .a _ => true | .aaaa _ => true | _ => false

/-- The `data` field of a PTR record. -/
def RR.ptrData (rr : RR) : String :=
  match rr.rdata with | .ptr d => d | _ => ""

/-- The `data` field of an A/AAAA record. -/
def RR.addrData (rr : RR) : String :=
  match rr.rdata with | .a d => d | .aaaa d => d | _ => ""

/-- An inbound response packet: answers plus additionals. -/
structure Packet where
  answers : List RR
  additionals : List RR
  deriving Repr, DecidableEq

/-- A service entity as built by `buildServicesFor` and stored in
`_services`.  Fields set only when an SRV record was correlated are
`Option`-valued, mirroring the incrementally assigned plain object of the
source.  The diagnostic `referer` field (the transport origin token, set
but never read by the engine) is omitted. -/
structure Svc where
  name : Option String := none
  fqdn : Option String := none
  host : Option String := none
  port : Option Nat := none
  type : Option String := none
  protocol : Option String := none
  subtypes : List String := []
  addresses : List String := []
  txt : Option TxtMap := none
  rawTxt : Option TxtMap := none
  ttl : Nat := 0
  lastSeen : Nat := 0
  deriving Repr, DecidableEq

/-- `service.fqdn` as used in `dnsEqual(s.fqdn, fqdn)` comparisons; every
stored service has an SRV-derived fqdn, so the default is never hit. -/
def fqdnOf (s : Svc) : String := s.fqdn.getD ""

/-- The browser lifecycle events (`BrowserEvents`). -/
inductive Event where
  | up (s : Svc)
  | down (s : Svc)
  | srvUpdate (newS oldS : Svc)
  | txtUpdate (newS oldS : Svc)
  deriving Repr, DecidableEq

/-- The event variants, without payloads. -/
inductive EventKind where
  | upK
  | downK
  | srvUpdateK
  | txtUpdateK
  deriving Repr, DecidableEq

def Event.kind : Event → EventKind
  | .up _ => .upK
  | .down _ => .downK
  | .srvUpdate _ _ => .srvUpdateK
  | .txtUpdate _ _ => .txtUpdateK

/-- An outbound query request: name and record type. -/
abbrev Query := String × String

/-- The `Browser` fields that drive discovery.  `listening` models whether
`onresponse` is registered with the record source; `nameMap` and
`serviceMap` model the key sets of the corresponding plain objects, in
insertion order. -/
structure BrowserState where
  name : Option String
  wildcard : Bool
  txtQuery : Option TxtMap
  listening : Bool := false
  nameMap : List String := []
  serviceMap : List String := []
  services : List Svc := []
  deriving Repr, DecidableEq

/-- Key insertion into a plain-object key set: idempotent, keeps insertion
order. -/
def keyInsert (l : List String) (k : String) : List String :=
  if l.contains k then l else l ++ [k]

/-- Key deletion from a plain-object key set. -/
def keyErase (l : List String) (k : String) : List String :=
  l.filter (fun x => !(x == k))

/-- `Array.prototype.toString` of the addresses array: comma-joined. -/
def joinAddresses (l : List String) : String := joinWith "," l

/-- The SRV-derived field comparison of `updateServiceSrv` (browser.ts
lines 191-197), as the conjunction whose negation triggers the update. -/
def srvFieldsEq (a b : Svc) : Bool :=
  a.name == b.name && a.host == b.host && a.port == b.port &&
  a.type == b.type && a.protocol == b.protocol &&
  joinAddresses a.addresses == joinAddresses b.addresses

/-- Remove the first `dnsEqual`-matching service from a list, returning it
and the remainder (the `some`/`splice` of `removeService`). -/
def removeFirst (l : List Svc) (fqdn : String) : Option (Svc × List Svc) :=
  match l with
  | [] => none
  | s :: rest =>
    if dnsEqual (fqdnOf s) fqdn then some (s, rest)
    else
      match removeFirst rest fqdn with
      | none => none
      | some (t, rest2) => some (t, s :: rest2)

/-- `Browser.removeService` (browser.ts lines 227-240). -/
def removeService (st : BrowserState) (fqdn : String) :
    BrowserState × List Event :=
  match removeFirst st.services fqdn with
  | none => (st, [])
  | some (s, rest) =>
    ({ st with services := rest, serviceMap := keyErase st.serviceMap fqdn },
     [Event.down s])

/-- `Browser.addService` (browser.ts lines 181-187). -/
def addService (st : BrowserState) (s : Svc) : BrowserState × List Event :=
  if filterServiceTxt s.txt st.txtQuery = false then (st, [])
  else
    ({ st with services := st.services ++ [s],
               serviceMap := keyInsert st.serviceMap (fqdnOf s) },
     [Event.up s])

/-- `Browser.replaceService` (browser.ts lines 220-225). -/
def replaceService (st : BrowserState) (s : Svc) : BrowserState :=
  { st with services :=
      st.services.map (fun t => if dnsEqual (fqdnOf t) (fqdnOf s) then s else t) }

/-- `Browser.updateServiceSrv` (browser.ts lines 189-203). -/
def updateServiceSrv (st : BrowserState) (existing newS : Svc) :
    BrowserState × List Event :=
  if srvFieldsEq existing newS then (st, [])
  else (replaceService st newS, [Event.srvUpdate newS existing])

/-- `Browser.updateServiceTxt` (browser.ts lines 205-218). -/
def updateServiceTxt (st : BrowserState) (existing s : Svc) :
    BrowserState × List Event :=
  if equalTxt s.txt (existing.txt.getD []) then (st, [])
  else if filterServiceTxt s.txt st.txtQuery = false then
    removeService st (fqdnOf s)
  else (replaceService st s, [Event.txtUpdate s existing])

/-- `Browser.goodbyes` (browser.ts lines 251-255): data of all PTR records
with ttl 0 whose name matches. -/
def goodbyes (name : String) (p : Packet) : List String :=
  ((p.answers ++ p.additionals).filter
    (fun rr => rr.isPTR && rr.ttl == 0 && dnsEqual rr.name name)).map RR.ptrData

/-- `rr.name.includes('._sub')` of the subtype correlation. -/
def hasSubMarker (s : String) : Bool := containsSeq "._sub".data s.data

/-- First dotted label of a name. -/
def headLabel (s : String) : String := (splitDots s).headD ""

/-- One step of the SRV/TXT correlation `forEach` (browser.ts lines
289-304): an SRV record overwrites the connection fields, a TXT record the
metadata fields. -/
def applySrvTxt (c : Svc) (rr : RR) : Svc :=
  match rr.rdata with
  | .srv target port =>
    let parts := splitDots rr.name
    let types := serviceToType (joinWith "." (parts.drop 1).dropLast)
    { c with name := some (headLabel rr.name), fqdn := some rr.name,
             host := some target, port := some port,
             type := some types.name, protocol := some types.protocol }
  | .txt d => { c with rawTxt := some d, txt := some (decodeAll d) }
  | _ => c

/-- The positive records of a packet: answers plus additionals, goodbyes
(ttl 0) discarded (browser.ts line 266). -/
def packetRecords (p : Packet) : List RR :=
  (p.answers ++ p.additionals).filter (fun rr => rr.ttl > 0)

/-- The body of the per-PTR `map` of `buildServicesFor` (browser.ts lines
270-314): correlate subtype PTRs, SRV/TXT, and addresses for one candidate
instance; `none` when no SRV record supplied a name. -/
def buildOne (records : List RR) (receiveTime : Nat) (ptr : RR) : Option Svc :=
  let subs := (records.filter (fun rr =>
      rr.isPTR && dnsEqual rr.ptrData ptr.ptrData && hasSubMarker rr.name)).map
      (fun rr => (serviceToType rr.name).subtype.getD "")
  let c0 : Svc := { subtypes := subs, ttl := ptr.ttl, lastSeen := receiveTime }
  let c1 := (records.filter (fun rr =>
      (rr.isSRV || rr.isTXT) && dnsEqual rr.name ptr.ptrData)).foldl
      applySrvTxt c0
  if c1.name.isNone then none
  else
    let addrs := (records.filter (fun rr =>
        rr.isAddr && dnsEqual rr.name (c1.host.getD ""))).map RR.addrData
    some { c1 with addresses := c1.addresses ++ addrs }

/-- `Browser.buildServicesFor` (browser.ts lines 265-316). -/
def buildServicesFor (name : String) (p : Packet) (receiveTime : Nat) :
    List Svc :=
  ((packetRecords p).filter (fun rr => rr.isPTR && dnsEqual rr.name name)).filterMap
    (buildOne (packetRecords p) receiveTime)

/-- Fold a state/event-emitting step over a list, concatenating the emitted
events in order. -/
def stepFold {α : Type} (f : BrowserState → α → BrowserState × List Event)
    (init : BrowserState × List Event) (l : List α) :
    BrowserState × List Event :=
  l.foldl (fun acc x => let r := f acc.1 x; (r.1, acc.2 ++ r.2)) init

/-- The match-loop body of `onresponse` (browser.ts lines 118-128): find an
existing service by fqdn; refresh its `lastSeen` and run both update
checks, or admit the candidate as new. -/
def handleMatch (st : BrowserState) (c : Svc) : BrowserState × List Event :=
  match st.services.find? (fun s => dnsEqual (fqdnOf s) (fqdnOf c)) with
  | none => addService st c
  | some e0 =>
    let existing := { e0 with lastSeen := c.lastSeen }
    let touched := st.services.map (fun s =>
      if dnsEqual (fqdnOf s) (fqdnOf c) then { s with lastSeen := c.lastSeen }
      else s)
    let st1 := { st with services := touched }
    let r1 := updateServiceSrv st1 existing c
    let r2 := updateServiceTxt r1.1 existing c
    (r2.1, r1.2 ++ r2.2)

/-- The per-tracked-name body of `onresponse` (browser.ts lines 110-129):
goodbye removals first, then candidate matching. -/
def handleName (st : BrowserState) (name : String) (p : Packet)
    (receiveTime : Nat) : BrowserState × List Event :=
  let g := stepFold (fun s fq => removeService s fq) (st, []) (goodbyes name p)
  let m := stepFold handleMatch (g.1, []) (buildServicesFor name p receiveTime)
  (m.1, g.2 ++ m.2)

/-- The wildcard block of `onresponse` (browser.ts lines 100-106): for each
PTR answer named with the wildcard meta-name, unless the *answer's name* is
already a key of `nameMap`, record the answer's data as a tracked name and
issue a secondary PTR query for it. -/
def wildcardStep (st : BrowserState) (answers : List RR) :
    BrowserState × List Query :=
  answers.foldl (fun acc answer =>
    if answer.isPTR && some answer.name == st.name &&
        !(acc.1.nameMap.contains answer.name) then
      ({ acc.1 with nameMap := keyInsert acc.1.nameMap answer.ptrData },
       acc.2 ++ [(answer.ptrData, "PTR")])
    else acc) (st, [])

/-- The whole `onresponse` handler (browser.ts lines 99-130). -/
def onresponse (st : BrowserState) (p : Packet) (receiveTime : Nat) :
    BrowserState × List Event × List Query :=
  let w := if st.wildcard then wildcardStep st p.answers else (st, [])
  let r := stepFold (fun s nm => handleName s nm p receiveTime)
      (w.1, []) w.1.nameMap
  (r.1, r.2, w.2)

/-- `Browser.update` (browser.ts lines 149-151). -/
def update (st : BrowserState) : List Query := [(st.name.getD "", "PTR")]

/-- `Browser.start` (browser.ts lines 88-134): no-op when already listening
or no query name; otherwise seed `nameMap`, register the handler and
re-issue the query. -/
def start (st : BrowserState) : BrowserState × List Query :=
  if st.listening || st.name.isNone then (st, [])
  else
    let nm := if st.wildcard then [] else [st.name.getD ""]
    let st2 := { st with listening := true, nameMap := nm }
    (st2, update st2)

/-- `Browser.stop` (browser.ts lines 139-144). -/
def stop (st : BrowserState) : BrowserState :=
  if st.listening then { st with listening := false } else st

/-- The filter-with-emission of `Browser.expire` (browser.ts lines
159-171), one list pass. -/
def expireFilter (now : Nat) : List Svc → List Svc × List Event
  | [] => ([], [])
  | s :: rest =>
    let r := expireFilter now rest
    if s.ttl == 0 then (s :: r.1, r.2)
    else if s.lastSeen + s.ttl * 1000 < now then (r.1, Event.down s :: r.2)
    else (s :: r.1, r.2)

/-- `Browser.expire` (browser.ts lines 156-172). -/
def expire (st : BrowserState) (now : Nat) : BrowserState × List Event :=
  let r := expireFilter now st.services
  ({ st with services := r.1 }, r.2)

/-- The `BrowserConfig` options object. -/
structure BrowserConfig where
  type : Option String := none
  name : Option String := none
  protocol : Option String := none
  subtypes : List String := []
  txt : Option TxtMap := none

/-- The `Browser` constructor (browser.ts lines 59-83): derive the query
name (wildcard when no type is given), build the TXT query, and call
`start` immediately. -/
def mkBrowser (opts : Option BrowserConfig) : BrowserState × List Query :=
  let base : BrowserState :=
    match opts with
    | none =>
      { name := some WILDCARD, wildcard := true, txtQuery := none }
    | some o =>
      match o.type with
      | none =>
        { name := some WILDCARD, wildcard := true,
          txtQuery := o.txt.map filterTxt }
      | some t =>
        let n0 := serviceToString t (o.protocol.getD "tcp") ++ TLD
        let n1 := match o.name with
          | some inst => inst ++ "." ++ n0
          | none => n0
        { name := some n1, wildcard := false, txtQuery := o.txt.map filterTxt }
  start base

/-- The caller-visible operations whose sequences generate the reachable
states. -/
inductive Action where
  | packet (p : Packet) (t : Nat)
  | start
  | stop
  | update
  | expire (now : Nat)

/-- One caller-visible step; a packet is only handled while the handler is
registered. -/
def step (st : BrowserState) (a : Action) : BrowserState :=
  match a with
  | .packet p t => if st.listening then (onresponse st p t).1 else st
  | .start => (Bonjour.start st).1
  | .stop => Bonjour.stop st
  | .update => st
  | .expire now => (Bonjour.expire st now).1

/-- Run a sequence of caller-visible operations. -/
def run (st : BrowserState) (acts : List Action) : BrowserState :=
  acts.foldl step st

/-! ## Basic lemmas -/

theorem dnsEqual_iff (a b : String) : dnsEqual a b = true ↔ a = b := by
  simp [dnsEqual]

theorem dnsEqual_false_iff (a b : String) : dnsEqual a b = false ↔ a ≠ b := by
  simp [dnsEqual]

@[simp]
theorem srvFieldsEq_lastSeen (e c : Svc) (t : Nat) :
    srvFieldsEq { e with lastSeen := t } c = srvFieldsEq e c := rfl

/-- The `expire` pass keeps exactly the services that are not yet stale, in
order, and emits `down` for the others, in order. -/
theorem expireFilter_spec (now : Nat) (l : List Svc) :
    (expireFilter now l).1 =
      l.filter (fun s => s.ttl == 0 || !(decide (s.lastSeen + s.ttl * 1000 < now))) ∧
    (expireFilter now l).2 =
      (l.filter (fun s => !(s.ttl == 0) && decide (s.lastSeen + s.ttl * 1000 < now))).map
        Event.down := by
  induction l with
  | nil => exact ⟨rfl, rfl⟩
  | cons s rest ih =>
    by_cases h0 : s.ttl = 0
    · simp [expireFilter, h0, List.filter_cons, ih.1, ih.2]
    · by_cases h1 : s.lastSeen + s.ttl * 1000 < now
      · simp [expireFilter, h0, h1, List.filter_cons, ih.1, ih.2]
      · simp [expireFilter, h0, h1, List.filter_cons, ih.1, ih.2]

theorem removeFirst_eq_none (f : String) (l : List Svc)
    (h : ∀ s ∈ l, fqdnOf s ≠ f) : removeFirst l f = none := by
  induction l with
  | nil => rfl
  | cons s rest ih =>
    have hs : dnsEqual (fqdnOf s) f = false :=
      (dnsEqual_false_iff _ _).mpr (h s (List.mem_cons_self s rest))
    simp [removeFirst, hs, ih (fun x hx => h x (List.mem_cons_of_mem s hx))]

theorem removeFirst_middle (f : String) (l₁ l₂ : List Svc) (e : Svc)
    (h1 : ∀ s ∈ l₁, fqdnOf s ≠ f) (h2 : fqdnOf e = f) :
    removeFirst (l₁ ++ e :: l₂) f = some (e, l₁ ++ l₂) := by
  induction l₁ with
  | nil =>
    have he : dnsEqual (fqdnOf e) f = true := (dnsEqual_iff _ _).mpr h2
    simp [removeFirst, he]
  | cons s rest ih =>
    have hs : dnsEqual (fqdnOf s) f = false :=
      (dnsEqual_false_iff _ _).mpr (h1 s (List.mem_cons_self s rest))
    simp [removeFirst, hs, ih (fun x hx => h1 x (List.mem_cons_of_mem s hx))]

/-- Processing a packet whose only record is a single goodbye PTR for the
tracked name reduces to one `removeService` call on its data. -/
theorem onresponse_single_goodbye (n f : String) (tq : Option TxtMap)
    (sm : List String) (srv : List Svc) (t : Nat) :
    onresponse ⟨some n, false, tq, true, [n], sm, srv⟩
        ⟨[⟨n, 0, RData.ptr f⟩], []⟩ t =
      ((removeService ⟨some n, false, tq, true, [n], sm, srv⟩ f).1,
       (removeService ⟨some n, false, tq, true, [n], sm, srv⟩ f).2, []) := by
  have hg : goodbyes n ⟨[⟨n, 0, RData.ptr f⟩], []⟩ = [f] := by
    simp [goodbyes, RR.isPTR, RR.ptrData, dnsEqual]
  simp only [onresponse, stepFold, List.foldl, handleName, hg,
    List.append_nil, List.nil_append, Bool.false_eq_true, if_false]

/-! ## Claim theorems -/

/-- C1 (code bug evidence): in wildcard mode, the same meta-PTR record
delivered in two packets causes the secondary PTR query for the discovered
type to be issued twice (once per packet), even though the type is added to
the tracked-name set only once.  The claim's "exactly one secondary query
per type no matter how many packets repeat the record" fails: the dedup
guard of the wildcard block (browser.ts line 102) tests `answer.name` — the
meta-name, which is never a tracked key — instead of `answer.data`. -/
theorem c1_wildcard_requery_on_repeat :
    (onresponse (mkBrowser none).1
        ⟨[⟨WILDCARD, 4500, RData.ptr "_http._tcp.local"⟩], []⟩ 1).2.2 =
      [("_http._tcp.local", "PTR")] ∧
    (onresponse
        (onresponse (mkBrowser none).1
          ⟨[⟨WILDCARD, 4500, RData.ptr "_http._tcp.local"⟩], []⟩ 1).1
        ⟨[⟨WILDCARD, 4500, RData.ptr "_http._tcp.local"⟩], []⟩ 2).2.2 =
      [("_http._tcp.local", "PTR")] ∧
    (onresponse (mkBrowser none).1
        ⟨[⟨WILDCARD, 4500, RData.ptr "_http._tcp.local"⟩], []⟩ 1).1.nameMap =
      ["_http._tcp.local"] ∧
    (onresponse
        (onresponse (mkBrowser none).1
          ⟨[⟨WILDCARD, 4500, RData.ptr "_http._tcp.local"⟩], []⟩ 1).1
        ⟨[⟨WILDCARD, 4500, RData.ptr "_http._tcp.local"⟩], []⟩ 2).1.nameMap =
      ["_http._tcp.local"] := by
  refine ⟨?_, ?_, ?_, ?_⟩ <;> rfl

/-- C5: `expire` at time `now` removes from the known set exactly the
services with `lastSeen + ttl*1000 < now` and nonzero ttl, emitting one
`down` per removed service in order, and keeps every other service (in
particular every ttl-0 service) in place. -/
theorem c5_expire_removes_exactly_stale (st : BrowserState) (now : Nat) :
    (expire st now).1.services =
      st.services.filter
        (fun s => s.ttl == 0 || !(decide (s.lastSeen + s.ttl * 1000 < now))) ∧
    (expire st now).2 =
      (st.services.filter
        (fun s => !(s.ttl == 0) && decide (s.lastSeen + s.ttl * 1000 < now))).map
        Event.down :=
  ⟨(expireFilter_spec now st.services).1, (expireFilter_spec now st.services).2⟩

/-- C10: constructing a browser immediately starts discovery: the
constructor leaves the engine listening, has issued the initial PTR query
for the derived query name, and a subsequent explicit `start` call is a
no-op. -/
theorem c10_constructor_starts (opts : Option BrowserConfig) :
    (mkBrowser opts).1.listening = true ∧
    (mkBrowser opts).2 = [((mkBrowser opts).1.name.getD "", "PTR")] ∧
    start (mkBrowser opts).1 = ((mkBrowser opts).1, []) := by
  rcases opts with _ | ⟨ty, nm, pr, sub, tx⟩
  · exact ⟨rfl, rfl, rfl⟩
  · rcases ty with _ | t
    · exact ⟨rfl, rfl, rfl⟩
    · rcases nm with _ | inst
      · exact ⟨rfl, rfl, rfl⟩
      · exact ⟨rfl, rfl, rfl⟩

/-- C2: a packet containing a PTR record with ttl 0 whose name equals the
tracked name and whose data equals the fqdn of a known service removes that
service and emits exactly one `down` event; processing the identical
goodbye against a known set with no service of that fqdn changes nothing
and emits nothing. -/
theorem c2_goodbye_removes_known_service (n f : String) (tq : Option TxtMap)
    (sm : List String) (l₁ l₂ lnone : List Svc) (e : Svc) (t : Nat)
    (h1 : ∀ s ∈ l₁, fqdnOf s ≠ f) (h2 : fqdnOf e = f)
    (h3 : ∀ s ∈ lnone, fqdnOf s ≠ f) :
    onresponse ⟨some n, false, tq, true, [n], sm, l₁ ++ e :: l₂⟩
        ⟨[⟨n, 0, RData.ptr f⟩], []⟩ t =
      (⟨some n, false, tq, true, [n], keyErase sm f, l₁ ++ l₂⟩,
       [Event.down e], []) ∧
    onresponse ⟨some n, false, tq, true, [n], sm, lnone⟩
        ⟨[⟨n, 0, RData.ptr f⟩], []⟩ t =
      (⟨some n, false, tq, true, [n], sm, lnone⟩, [], []) := by
  constructor
  · rw [onresponse_single_goodbye]
    simp [removeService, removeFirst_middle f l₁ l₂ e h1 h2]
  · rw [onresponse_single_goodbye]
    simp [removeService, removeFirst_eq_none f lnone h3]

/-- C2 witness: the goodbye scenario at a concrete known service, then the
same goodbye against the emptied set. -/
theorem c2_goodbye_removes_known_service_witness :
    onresponse ⟨some "_http._tcp.local", false, none, true,
        ["_http._tcp.local"], ["a._http._tcp.local"],
        [] ++ ⟨some "a", some "a._http._tcp.local", some "h.local", some 80,
          some "http", some "tcp", [], [], none, none, 120, 9⟩ :: []⟩
        ⟨[⟨"_http._tcp.local", 0, RData.ptr "a._http._tcp.local"⟩], []⟩ 10 =
      (⟨some "_http._tcp.local", false, none, true, ["_http._tcp.local"],
        keyErase ["a._http._tcp.local"] "a._http._tcp.local", [] ++ []⟩,
       [Event.down ⟨some "a", some "a._http._tcp.local", some "h.local",
          some 80, some "http", some "tcp", [], [], none, none, 120, 9⟩],
       []) ∧
    onresponse ⟨some "_http._tcp.local", false, none, true,
        ["_http._tcp.local"], ["a._http._tcp.local"], []⟩
        ⟨[⟨"_http._tcp.local", 0, RData.ptr "a._http._tcp.local"⟩], []⟩ 10 =
      (⟨some "_http._tcp.local", false, none, true, ["_http._tcp.local"],
        ["a._http._tcp.local"], []⟩, [], []) :=
  c2_goodbye_removes_known_service "_http._tcp.local" "a._http._tcp.local"
    none ["a._http._tcp.local"] [] [] []
    ⟨some "a", some "a._http._tcp.local", some "h.local", some 80,
     some "http", some "tcp", [], [], none, none, 120, 9⟩ 10
    (by simp) (by decide) (by simp)

theorem find_middle (f : String) (l₁ l₂ : List Svc) (e : Svc)
    (h1 : ∀ s ∈ l₁, fqdnOf s ≠ f) (h2 : fqdnOf e = f) :
    (l₁ ++ e :: l₂).find? (fun s => dnsEqual (fqdnOf s) f) = some e := by
  induction l₁ with
  | nil => simp [List.find?_cons, (dnsEqual_iff _ _).mpr h2]
  | cons s rest ih =>
    have hs : dnsEqual (fqdnOf s) f = false :=
      (dnsEqual_false_iff _ _).mpr (h1 s (List.mem_cons_self s rest))
    simp [List.find?_cons, hs,
      ih (fun x hx => h1 x (List.mem_cons_of_mem s hx))]

theorem map_replace_eq_self (f : String) (c : Svc) (l : List Svc)
    (h : ∀ s ∈ l, fqdnOf s ≠ f) :
    l.map (fun s => if dnsEqual (fqdnOf s) f then c else s) = l := by
  induction l with
  | nil => rfl
  | cons s rest ih =>
    have hs : dnsEqual (fqdnOf s) f = false :=
      (dnsEqual_false_iff _ _).mpr (h s (List.mem_cons_self s rest))
    simp [hs, ih (fun x hx => h x (List.mem_cons_of_mem s hx))]

theorem replace_middle (f : String) (c : Svc) (l₁ l₂ : List Svc) (e : Svc)
    (h1 : ∀ s ∈ l₁, fqdnOf s ≠ f) (h2 : ∀ s ∈ l₂, fqdnOf s ≠ f)
    (he : fqdnOf e = f) :
    (l₁ ++ e :: l₂).map (fun s => if dnsEqual (fqdnOf s) f then c else s) =
      l₁ ++ c :: l₂ := by
  rw [List.map_append, List.map_cons, map_replace_eq_self f c l₁ h1,
    map_replace_eq_self f c l₂ h2]
  simp [(dnsEqual_iff _ _).mpr he]

/-- C3: for a known service, the two update checks fire independently and
exactly according to what changed between the stored entry and the
candidate: nothing changed fires nothing; only TXT content changed fires
`txt-update` alone; only SRV-derived fields changed fires `srv-update`
alone; both changed fire both, in the same pass. -/
theorem c3_update_event_classification
    (na : Option String) (wc li : Bool) (tq : Option TxtMap)
    (nmp sm : List String) (l₁ l₂ : List Svc) (e cEq cTxt cSrv cBoth : Svc)
    (h1 : ∀ s ∈ l₁, fqdnOf s ≠ fqdnOf e)
    (hEqF : fqdnOf cEq = fqdnOf e) (hEqS : srvFieldsEq e cEq = true)
    (hEqT : equalTxt cEq.txt (e.txt.getD []) = true)
    (hTxF : fqdnOf cTxt = fqdnOf e) (hTxS : srvFieldsEq e cTxt = true)
    (hTxT : equalTxt cTxt.txt (e.txt.getD []) = false)
    (hTxFil : filterServiceTxt cTxt.txt tq = true)
    (hSrF : fqdnOf cSrv = fqdnOf e) (hSrS : srvFieldsEq e cSrv = false)
    (hSrT : equalTxt cSrv.txt (e.txt.getD []) = true)
    (hBoF : fqdnOf cBoth = fqdnOf e) (hBoS : srvFieldsEq e cBoth = false)
    (hBoT : equalTxt cBoth.txt (e.txt.getD []) = false)
    (hBoFil : filterServiceTxt cBoth.txt tq = true) :
    (handleMatch ⟨na, wc, tq, li, nmp, sm, l₁ ++ e :: l₂⟩ cEq).2.map
      Event.kind = [] ∧
    (handleMatch ⟨na, wc, tq, li, nmp, sm, l₁ ++ e :: l₂⟩ cTxt).2.map
      Event.kind = [EventKind.txtUpdateK] ∧
    (handleMatch ⟨na, wc, tq, li, nmp, sm, l₁ ++ e :: l₂⟩ cSrv).2.map
      Event.kind = [EventKind.srvUpdateK] ∧
    (handleMatch ⟨na, wc, tq, li, nmp, sm, l₁ ++ e :: l₂⟩ cBoth).2.map
      Event.kind = [EventKind.srvUpdateK, EventKind.txtUpdateK] := by
  have hff : ∀ c : Svc, fqdnOf c = fqdnOf e →
      (l₁ ++ e :: l₂).find? (fun s => dnsEqual (fqdnOf s) (fqdnOf c)) =
        some e := by
    intro c hc
    rw [hc]
    exact find_middle (fqdnOf e) l₁ l₂ e h1 rfl
  refine ⟨?_, ?_, ?_, ?_⟩
  · simp [handleMatch, hff cEq hEqF, updateServiceSrv, updateServiceTxt,
      hEqS, hEqT]
  · simp [handleMatch, hff cTxt hTxF, updateServiceSrv, updateServiceTxt,
      hTxS, hTxT, hTxFil, Event.kind]
  · simp [handleMatch, hff cSrv hSrF, updateServiceSrv, updateServiceTxt,
      replaceService, hSrS, hSrT, Event.kind]
  · simp [handleMatch, hff cBoth hBoF, updateServiceSrv, updateServiceTxt,
      replaceService, hBoS, hBoT, hBoFil, Event.kind]

/-- C3 witness: a stored entry and four concrete candidates (unchanged,
TXT-only change, SRV-only change, both changed). -/
theorem c3_update_event_classification_witness :
    (handleMatch ⟨some "_http._tcp.local", false, none, true, [], [],
        [] ++ ⟨some "a", some "a._http._tcp.local", some "h1", some 80,
          some "http", some "tcp", [], [], some [("k", "1")], some [("k", "1")],
          120, 0⟩ :: []⟩
      ⟨some "a", some "a._http._tcp.local", some "h1", some 80, some "http",
       some "tcp", [], [], some [("k", "1")], some [("k", "1")], 120, 50⟩).2.map
      Event.kind = [] ∧
    (handleMatch ⟨some "_http._tcp.local", false, none, true, [], [],
        [] ++ ⟨some "a", some "a._http._tcp.local", some "h1", some 80,
          some "http", some "tcp", [], [], some [("k", "1")], some [("k", "1")],
          120, 0⟩ :: []⟩
      ⟨some "a", some "a._http._tcp.local", some "h1", some 80, some "http",
       some "tcp", [], [], some [("k", "2")], some [("k", "2")], 120, 50⟩).2.map
      Event.kind = [EventKind.txtUpdateK] ∧
    (handleMatch ⟨some "_http._tcp.local", false, none, true, [], [],
        [] ++ ⟨some "a", some "a._http._tcp.local", some "h1", some 80,
          some "http", some "tcp", [], [], some [("k", "1")], some [("k", "1")],
          120, 0⟩ :: []⟩
      ⟨some "a", some "a._http._tcp.local", some "h1", some 81, some "http",
       some "tcp", [], [], some [("k", "1")], some [("k", "1")], 120, 50⟩).2.map
      Event.kind = [EventKind.srvUpdateK] ∧
    (handleMatch ⟨some "_http._tcp.local", false, none, true, [], [],
        [] ++ ⟨some "a", some "a._http._tcp.local", some "h1", some 80,
          some "http", some "tcp", [], [], some [("k", "1")], some [("k", "1")],
          120, 0⟩ :: []⟩
      ⟨some "a", some "a._http._tcp.local", some "h1", some 81, some "http",
       some "tcp", [], [], some [("k", "2")], some [("k", "2")], 120, 50⟩).2.map
      Event.kind = [EventKind.srvUpdateK, EventKind.txtUpdateK] :=
  c3_update_event_classification (some "_http._tcp.local") false true none
    [] [] [] []
    ⟨some "a", some "a._http._tcp.local", some "h1", some 80, some "http",
     some "tcp", [], [], some [("k", "1")], some [("k", "1")], 120, 0⟩
    ⟨some "a", some "a._http._tcp.local", some "h1", some 80, some "http",
     some "tcp", [], [], some [("k", "1")], some [("k", "1")], 120, 50⟩
    ⟨some "a", some "a._http._tcp.local", some "h1", some 80, some "http",
     some "tcp", [], [], some [("k", "2")], some [("k", "2")], 120, 50⟩
    ⟨some "a", some "a._http._tcp.local", some "h1", some 81, some "http",
     some "tcp", [], [], some [("k", "1")], some [("k", "1")], 120, 50⟩
    ⟨some "a", some "a._http._tcp.local", some "h1", some 81, some "http",
     some "tcp", [], [], some [("k", "2")], some [("k", "2")], 120, 50⟩
    (by simp) (by decide) (by decide) (by decide) (by decide) (by decide)
    (by decide) (by decide) (by decide) (by decide) (by decide) (by decide)
    (by decide) (by decide) (by decide)

/-- C4: when a known service's TXT content changes, the outcome depends on
the attribute filter: if the new content fails the filter, the entry is
removed and exactly one `down` event fires (never a `txt-update`); if it
still passes, the entry is replaced in place and one `txt-update` carrying
both new and old entity fires. -/
theorem c4_txt_change_respects_filter
    (na : Option String) (wc li : Bool) (tq : Option TxtMap)
    (nmp sm : List String) (l₁ l₂ : List Svc) (e cf cp : Svc)
    (h1 : ∀ s ∈ l₁, fqdnOf s ≠ fqdnOf e) (h2 : ∀ s ∈ l₂, fqdnOf s ≠ fqdnOf e)
    (hcfF : fqdnOf cf = fqdnOf e)
    (hcfT : equalTxt cf.txt (e.txt.getD []) = false)
    (hcfFil : filterServiceTxt cf.txt tq = false)
    (hcpF : fqdnOf cp = fqdnOf e)
    (hcpT : equalTxt cp.txt (e.txt.getD []) = false)
    (hcpFil : filterServiceTxt cp.txt tq = true) :
    updateServiceTxt ⟨na, wc, tq, li, nmp, sm, l₁ ++ e :: l₂⟩ e cf =
      (⟨na, wc, tq, li, nmp, keyErase sm (fqdnOf cf), l₁ ++ l₂⟩,
       [Event.down e]) ∧
    updateServiceTxt ⟨na, wc, tq, li, nmp, sm, l₁ ++ e :: l₂⟩ e cp =
      (⟨na, wc, tq, li, nmp, sm, l₁ ++ cp :: l₂⟩, [Event.txtUpdate cp e]) := by
  constructor
  · have hrm := removeFirst_middle (fqdnOf cf) l₁ l₂ e
      (fun s hs => by rw [hcfF]; exact h1 s hs) hcfF.symm
    simp [updateServiceTxt, hcfT, hcfFil, removeService, hrm]
  · have hrp := replace_middle (fqdnOf cp) cp l₁ l₂ e
      (fun s hs => by rw [hcpF]; exact h1 s hs)
      (fun s hs => by rw [hcpF]; exact h2 s hs) hcpF.symm
    simp [updateServiceTxt, hcpT, hcpFil, replaceService, hrp]

/-- C4 witness: a concrete stored entry under the filter requiring
`k = 1`; a TXT change to `k = 2` is a removal with one `down`, a TXT
change that keeps `k = 1` is a replacement with one `txt-update`. -/
theorem c4_txt_change_respects_filter_witness :
    updateServiceTxt ⟨some "_http._tcp.local", false, some [("k", "1")], true,
        [], ["a._http._tcp.local"],
        [] ++ ⟨some "a", some "a._http._tcp.local", some "h1", some 80,
          some "http", some "tcp", [], [], some [("k", "1")], some [("k", "1")],
          120, 0⟩ :: []⟩
      ⟨some "a", some "a._http._tcp.local", some "h1", some 80, some "http",
       some "tcp", [], [], some [("k", "1")], some [("k", "1")], 120, 0⟩
      ⟨some "a", some "a._http._tcp.local", some "h1", some 80, some "http",
       some "tcp", [], [], some [("k", "2")], some [("k", "2")], 120, 9⟩ =
      (⟨some "_http._tcp.local", false, some [("k", "1")], true, [],
        keyErase ["a._http._tcp.local"]
          (fqdnOf ⟨some "a", some "a._http._tcp.local", some "h1", some 80,
            some "http", some "tcp", [], [], some [("k", "2")],
            some [("k", "2")], 120, 9⟩), [] ++ []⟩,
       [Event.down ⟨some "a", some "a._http._tcp.local", some "h1", some 80,
          some "http", some "tcp", [], [], some [("k", "1")],
          some [("k", "1")], 120, 0⟩]) ∧
    updateServiceTxt ⟨some "_http._tcp.local", false, some [("k", "1")], true,
        [], ["a._http._tcp.local"],
        [] ++ ⟨some "a", some "a._http._tcp.local", some "h1", some 80,
          some "http", some "tcp", [], [], some [("k", "1")], some [("k", "1")],
          120, 0⟩ :: []⟩
      ⟨some "a", some "a._http._tcp.local", some "h1", some 80, some "http",
       some "tcp", [], [], some [("k", "1")], some [("k", "1")], 120, 0⟩
      ⟨some "a", some "a._http._tcp.local", some "h1", some 80, some "http",
       some "tcp", [], [], some [("k", "1"), ("x", "y")],
       some [("k", "1"), ("x", "y")], 120, 9⟩ =
      (⟨some "_http._tcp.local", false, some [("k", "1")], true, [],
        ["a._http._tcp.local"],
        [] ++ ⟨some "a", some "a._http._tcp.local", some "h1", some 80,
          some "http", some "tcp", [], [], some [("k", "1"), ("x", "y")],
          some [("k", "1"), ("x", "y")], 120, 9⟩ :: []⟩,
       [Event.txtUpdate
          ⟨some "a", some "a._http._tcp.local", some "h1", some 80,
           some "http", some "tcp", [], [], some [("k", "1"), ("x", "y")],
           some [("k", "1"), ("x", "y")], 120, 9⟩
          ⟨some "a", some "a._http._tcp.local", some "h1", some 80,
           some "http", some "tcp", [], [], some [("k", "1")],
           some [("k", "1")], 120, 0⟩]) :=
  c4_txt_change_respects_filter (some "_http._tcp.local") false true
    (some [("k", "1")]) [] ["a._http._tcp.local"] [] []
    ⟨some "a", some "a._http._tcp.local", some "h1", some 80, some "http",
     some "tcp", [], [], some [("k", "1")], some [("k", "1")], 120, 0⟩
    ⟨some "a", some "a._http._tcp.local", some "h1", some 80, some "http",
     some "tcp", [], [], some [("k", "2")], some [("k", "2")], 120, 9⟩
    ⟨some "a", some "a._http._tcp.local", some "h1", some 80, some "http",
     some "tcp", [], [], some [("k", "1"), ("x", "y")],
     some [("k", "1"), ("x", "y")], 120, 9⟩
    (by simp) (by simp) (by decide) (by decide) (by decide) (by decide)
    (by decide) (by decide)

/-- The fqdn-uniqueness invariant on the known-service list: no two stored
services share a fully-qualified name. -/
def FqdnUnique (l : List Svc) : Prop := (l.map fqdnOf).Nodup

theorem fqdnUnique_sublist {l₁ l₂ : List Svc} (h : List.Sublist l₁ l₂)
    (hu : FqdnUnique l₂) : FqdnUnique l₁ :=
  List.Nodup.sublist (h.map fqdnOf) hu

theorem removeFirst_sublist (f : String) :
    ∀ (l : List Svc) (s : Svc) (l' : List Svc),
      removeFirst l f = some (s, l') → List.Sublist l' l := by
  intro l
  induction l with
  | nil => intro s l' h; exact absurd h (by simp [removeFirst])
  | cons x rest ih =>
    intro s l' h
    by_cases hx : dnsEqual (fqdnOf x) f = true
    · rw [removeFirst, if_pos hx] at h
      have h2 : rest = l' := congrArg Prod.snd (Option.some.inj h)
      rw [← h2]
      exact List.sublist_cons_self x rest
    · rw [removeFirst, if_neg hx] at h
      cases hrm : removeFirst rest f with
      | none => rw [hrm] at h; exact absurd h (by simp)
      | some pr =>
        obtain ⟨t2, rest2⟩ := pr
        rw [hrm] at h
        have h2 : x :: rest2 = l' := congrArg Prod.snd (Option.some.inj h)
        rw [← h2]
        exact List.Sublist.cons₂ x (ih t2 rest2 hrm)

theorem fq_removeService (st : BrowserState) (f : String)
    (hu : FqdnUnique st.services) :
    FqdnUnique (removeService st f).1.services := by
  cases hrm : removeFirst st.services f with
  | none => simpa [removeService, hrm] using hu
  | some pr =>
    obtain ⟨s, rest⟩ := pr
    have hsub := removeFirst_sublist f st.services s rest hrm
    simpa [removeService, hrm] using fqdnUnique_sublist hsub hu

theorem map_fqdn_congr (g : Svc → Svc) (hg : ∀ s, fqdnOf (g s) = fqdnOf s) :
    ∀ l : List Svc, (l.map g).map fqdnOf = l.map fqdnOf := by
  intro l
  induction l with
  | nil => rfl
  | cons s rest ih => simp [hg s, ih]

theorem fq_replaceService (st : BrowserState) (c : Svc)
    (hu : FqdnUnique st.services) :
    FqdnUnique (replaceService st c).services := by
  unfold FqdnUnique replaceService at *
  have hg : ∀ s : Svc,
      fqdnOf (if dnsEqual (fqdnOf s) (fqdnOf c) then c else s) = fqdnOf s := by
    intro s
    by_cases hs : dnsEqual (fqdnOf s) (fqdnOf c) = true
    · rw [if_pos hs]
      exact ((dnsEqual_iff _ _).mp hs).symm
    · rw [if_neg hs]
  rw [map_fqdn_congr _ hg st.services]
  exact hu

theorem fq_updateSrv (st : BrowserState) (e c : Svc)
    (hu : FqdnUnique st.services) :
    FqdnUnique (updateServiceSrv st e c).1.services := by
  by_cases h : srvFieldsEq e c = true
  · simpa [updateServiceSrv, h] using hu
  · simpa [updateServiceSrv, h] using fq_replaceService st c hu

theorem fq_updateTxt (st : BrowserState) (e c : Svc)
    (hu : FqdnUnique st.services) :
    FqdnUnique (updateServiceTxt st e c).1.services := by
  by_cases h1 : equalTxt c.txt (e.txt.getD []) = true
  · simpa [updateServiceTxt, h1] using hu
  · by_cases h2 : filterServiceTxt c.txt st.txtQuery = false
    · simpa [updateServiceTxt, h1, h2] using
        fq_removeService st (fqdnOf c) hu
    · simpa [updateServiceTxt, h1, h2] using fq_replaceService st c hu

theorem fq_touch (l : List Svc) (f : String) (t : Nat) :
    ((l.map (fun s => if dnsEqual (fqdnOf s) f then
      { s with lastSeen := t } else s)).map fqdnOf) = l.map fqdnOf := by
  have hg : ∀ s : Svc, fqdnOf (if dnsEqual (fqdnOf s) f then
      { s with lastSeen := t } else s) = fqdnOf s := by
    intro s
    by_cases hs : dnsEqual (fqdnOf s) f = true
    · rw [if_pos hs]; rfl
    · rw [if_neg hs]
  exact map_fqdn_congr _ hg l

theorem fq_addService_guard (st : BrowserState) (c : Svc)
    (hnone : st.services.find?
      (fun s => dnsEqual (fqdnOf s) (fqdnOf c)) = none)
    (hu : FqdnUnique st.services) :
    FqdnUnique (addService st c).1.services := by
  by_cases hfil : filterServiceTxt c.txt st.txtQuery = false
  · simpa [addService, hfil] using hu
  · have hall := List.find?_eq_none.mp hnone
    have hfil2 : filterServiceTxt c.txt st.txtQuery = true := by
      cases hft : filterServiceTxt c.txt st.txtQuery
      · exact absurd hft hfil
      · rfl
    unfold addService
    rw [hfil2]
    rw [if_neg (by decide : ((true : Bool) = false) -> False)]
    show ((st.services ++ [c]).map fqdnOf).Nodup
    rw [List.map_append]
    refine List.Nodup.append hu (List.nodup_singleton _) ?_
    intro a ha hb
    obtain ⟨s, hs, rfl⟩ := List.mem_map.mp ha
    have hne : fqdnOf s ≠ fqdnOf c := by
      intro hcontra
      exact hall s hs ((dnsEqual_iff _ _).mpr hcontra)
    exact hne (List.mem_singleton.mp hb)

theorem fq_handleMatch (st : BrowserState) (c : Svc)
    (hu : FqdnUnique st.services) :
    FqdnUnique (handleMatch st c).1.services := by
  cases hfind : st.services.find?
      (fun s => dnsEqual (fqdnOf s) (fqdnOf c)) with
  | none =>
    simpa [handleMatch, hfind] using fq_addService_guard st c hfind hu
  | some e0 =>
    have htouched : FqdnUnique
        ({ st with services := st.services.map (fun s =>
          if dnsEqual (fqdnOf s) (fqdnOf c) then
            { s with lastSeen := c.lastSeen } else s) } :
          BrowserState).services := by
      unfold FqdnUnique
      rw [fq_touch st.services (fqdnOf c) c.lastSeen]
      exact hu
    simpa [handleMatch, hfind] using
      fq_updateTxt _ { e0 with lastSeen := c.lastSeen } c
        (fq_updateSrv _ { e0 with lastSeen := c.lastSeen } c htouched)

theorem fq_stepFold {α : Type}
    (f : BrowserState → α → BrowserState × List Event)
    (hf : ∀ st x, FqdnUnique st.services → FqdnUnique (f st x).1.services)
    (l : List α) :
    ∀ (init : BrowserState × List Event), FqdnUnique init.1.services →
      FqdnUnique (stepFold f init l).1.services := by
  induction l with
  | nil => intro init h; exact h
  | cons x rest ih =>
    intro init h
    exact ih ((f init.1 x).1, init.2 ++ (f init.1 x).2) (hf init.1 x h)

theorem fq_handleName (st : BrowserState) (n : String) (p : Packet) (t : Nat)
    (hu : FqdnUnique st.services) :
    FqdnUnique (handleName st n p t).1.services := by
  have hg := fq_stepFold (fun s fq => removeService s fq)
    (fun s fq h => fq_removeService s fq h) (goodbyes n p) (st, []) hu
  exact fq_stepFold handleMatch (fun s c h => fq_handleMatch s c h)
    (buildServicesFor n p t) (_, []) hg

theorem wildcard_foldl_services (st : BrowserState) (ans : List RR) :
    ∀ (init : BrowserState × List Query),
      ((ans.foldl (fun acc answer =>
        if answer.isPTR && some answer.name == st.name &&
            !(acc.1.nameMap.contains answer.name) then
          ({ acc.1 with nameMap := keyInsert acc.1.nameMap answer.ptrData },
           acc.2 ++ [(answer.ptrData, "PTR")])
        else acc) init).1).services = init.1.services := by
  induction ans with
  | nil => intro init; rfl
  | cons a rest ih =>
    intro init
    rw [List.foldl_cons, ih]
    split
    · rfl
    · rfl

theorem wildcardStep_services (st : BrowserState) (ans : List RR) :
    (wildcardStep st ans).1.services = st.services :=
  wildcard_foldl_services st ans (st, [])

theorem fq_onresponse (st : BrowserState) (p : Packet) (t : Nat)
    (hu : FqdnUnique st.services) :
    FqdnUnique (onresponse st p t).1.services := by
  have hmain : ∀ (st1 : BrowserState), FqdnUnique st1.services →
      FqdnUnique ((stepFold (fun s nm => handleName s nm p t)
        (st1, []) st1.nameMap).1).services :=
    fun st1 h1 => fq_stepFold _ (fun s nm h => fq_handleName s nm p t h)
      st1.nameMap (st1, []) h1
  by_cases hwc : st.wildcard = true
  · have hws : FqdnUnique (wildcardStep st p.answers).1.services := by
      unfold FqdnUnique
      rw [wildcardStep_services st p.answers]
      exact hu
    simpa [onresponse, hwc] using
      hmain (wildcardStep st p.answers).1 hws
  · simpa [onresponse, hwc] using hmain st hu

theorem expireFilter_sublist (now : Nat) (l : List Svc) :
    List.Sublist (expireFilter now l).1 l := by
  induction l with
  | nil => simp [expireFilter]
  | cons s rest ih =>
    by_cases h0 : (s.ttl == 0) = true
    · simpa [expireFilter, h0] using List.Sublist.cons₂ s ih
    · by_cases h1 : s.lastSeen + s.ttl * 1000 < now
      · simpa [expireFilter, h0, h1] using List.Sublist.cons s ih
      · simpa [expireFilter, h0, h1] using List.Sublist.cons₂ s ih

theorem start_services (st : BrowserState) :
    (start st).1.services = st.services := by
  by_cases h : (st.listening || st.name.isNone) = true
  · simp [start, h]
  · simp [start, h, update]

theorem fq_step (st : BrowserState) (a : Action)
    (hu : FqdnUnique st.services) : FqdnUnique (step st a).services := by
  cases a with
  | packet p t =>
    by_cases hl : st.listening = true
    · simpa [step, hl] using fq_onresponse st p t hu
    · simpa [step, hl] using hu
  | start =>
    have hs : (step st Action.start).services = st.services :=
      start_services st
    unfold FqdnUnique
    rw [hs]
    exact hu
  | stop =>
    have hs : (step st Action.stop).services = st.services := by
      by_cases h : st.listening = true
      · simp [step, Bonjour.stop, h]
      · simp [step, Bonjour.stop, h]
    unfold FqdnUnique
    rw [hs]
    exact hu
  | update => exact hu
  | expire now =>
    exact fqdnUnique_sublist (expireFilter_sublist now st.services) hu

theorem fq_run (acts : List Action) :
    ∀ st : BrowserState, FqdnUnique st.services →
      FqdnUnique (run st acts).services := by
  induction acts with
  | nil => intro st h; exact h
  | cons a rest ih =>
    intro st h
    exact ih (step st a) (fq_step st a h)

theorem mkBrowser_services (opts : Option BrowserConfig) :
    (mkBrowser opts).1.services = [] := by
  rcases opts with _ | ⟨ty, nm, pr, sub, tx⟩
  · simpa using start_services _
  · rcases ty with _ | ts
    · simpa [mkBrowser] using start_services _
    · simpa [mkBrowser] using start_services _

/-- C7: for every configuration and every sequence of packet handling,
`start`, `stop`, `update` and `expire` calls, the known-service set holds
at most one Service Record per fully-qualified name. -/
theorem c7_fqdn_unique_invariant (opts : Option BrowserConfig)
    (acts : List Action) :
    FqdnUnique (run (mkBrowser opts).1 acts).services := by
  apply fq_run
  unfold FqdnUnique
  rw [mkBrowser_services opts]
  simp

/-- C8: a single packet carrying a goodbye PTR and a fresh complete record
set (PTR, SRV, TXT, A) for the same fully-qualified name produces a `down`
event for the previously known entry (whatever its stored fields were)
followed by exactly one `up` event for the rebuilt candidate: the per-name
loop processes goodbyes before new candidates. -/
theorem c8_goodbye_processed_before_candidates (nm0 ho : Option String)
    (po : Option Nat) (ty pr : Option String) (sub adr : List String)
    (tx rtx : Option TxtMap) (tl ls t : Nat) :
    onresponse
      ⟨some "_http._tcp.local", false, none, true, ["_http._tcp.local"],
       ["restart._http._tcp.local"],
       [⟨nm0, some "restart._http._tcp.local", ho, po, ty, pr, sub, adr,
         tx, rtx, tl, ls⟩]⟩
      ⟨[⟨"_http._tcp.local", 0, RData.ptr "restart._http._tcp.local"⟩,
        ⟨"_http._tcp.local", 300, RData.ptr "restart._http._tcp.local"⟩,
        ⟨"restart._http._tcp.local", 300, RData.srv "host7.local" 9000⟩,
        ⟨"restart._http._tcp.local", 300, RData.txt [("k", "v")]⟩,
        ⟨"host7.local", 300, RData.a "192.168.0.9"⟩], []⟩ t =
    (⟨some "_http._tcp.local", false, none, true, ["_http._tcp.local"],
      ["restart._http._tcp.local"],
      [⟨some "restart", some "restart._http._tcp.local", some "host7.local",
        some 9000, some "http", some "tcp", [], ["192.168.0.9"],
        some [("k", "v")], some [("k", "v")], 300, t⟩]⟩,
     [Event.down ⟨nm0, some "restart._http._tcp.local", ho, po, ty, pr, sub,
        adr, tx, rtx, tl, ls⟩,
      Event.up ⟨some "restart", some "restart._http._tcp.local",
        some "host7.local", some 9000, some "http", some "tcp", [],
        ["192.168.0.9"], some [("k", "v")], some [("k", "v")], 300, t⟩],
     []) := rfl

/-- C9: with no TXT filter configured, a packet re-announcing a known
service (stored TXT mapping non-empty) with matching PTR and SRV records
but no TXT record at all is treated as a TXT change: one `txt-update` event
fires and the stored entry is replaced by a candidate whose `txt` and
`rawTxt` are absent. -/
theorem c9_missing_txt_record_erases_txt (m r : TxtMap) (t0 t : Nat)
    (hm : m ≠ []) :
    onresponse
      ⟨some "_http._tcp.local", false, none, true, ["_http._tcp.local"],
       ["box._http._tcp.local"],
       [⟨some "box", some "box._http._tcp.local", some "box.local", some 8000,
         some "http", some "tcp", [], [], some m, some r, 120, t0⟩]⟩
      ⟨[⟨"_http._tcp.local", 120, RData.ptr "box._http._tcp.local"⟩,
        ⟨"box._http._tcp.local", 120, RData.srv "box.local" 8000⟩], []⟩ t =
    (⟨some "_http._tcp.local", false, none, true, ["_http._tcp.local"],
      ["box._http._tcp.local"],
      [⟨some "box", some "box._http._tcp.local", some "box.local", some 8000,
        some "http", some "tcp", [], [], none, none, 120, t⟩]⟩,
     [Event.txtUpdate
        ⟨some "box", some "box._http._tcp.local", some "box.local", some 8000,
         some "http", some "tcp", [], [], none, none, 120, t⟩
        ⟨some "box", some "box._http._tcp.local", some "box.local", some 8000,
         some "http", some "tcp", [], [], some m, some r, 120, t⟩],
     []) := rfl

/-- A candidate's connection fields all originate in a single SRV record of
the given record list. -/
def SrvOrigin (S : List RR) (c : Svc) : Prop :=
  ∃ rr, rr ∈ S ∧ ∃ tg pt, rr.rdata = RData.srv tg pt ∧
    c.name = some (headLabel rr.name) ∧ c.fqdn = some rr.name ∧
    c.host = some tg ∧ c.port = some pt

theorem foldl_applySrvTxt_origin (S : List RR) (l : List RR)
    (hl : ∀ rr ∈ l, rr ∈ S) :
    ∀ c0 : Svc, (c0.name = none ∨ SrvOrigin S c0) →
      ((l.foldl applySrvTxt c0).name = none ∨
        SrvOrigin S (l.foldl applySrvTxt c0)) := by
  induction l with
  | nil => intro c0 h0; exact h0
  | cons rr rest ih =>
    intro c0 h0
    have hrest : ∀ x ∈ rest, x ∈ S :=
      fun x hx => hl x (List.mem_cons_of_mem rr hx)
    have hih := ih hrest (applySrvTxt c0 rr)
    rw [List.foldl_cons]
    apply hih
    cases hrr : rr.rdata with
    | srv tg pt =>
      right
      exact ⟨rr, hl rr (List.mem_cons_self rr rest), tg, pt, hrr,
        by simp [applySrvTxt, hrr], by simp [applySrvTxt, hrr],
        by simp [applySrvTxt, hrr], by simp [applySrvTxt, hrr]⟩
    | ptr d => simpa [applySrvTxt, hrr] using h0
    | txt d => simpa [applySrvTxt, hrr, SrvOrigin] using h0
    | a d => simpa [applySrvTxt, hrr] using h0
    | aaaa d => simpa [applySrvTxt, hrr] using h0

theorem buildOne_srvOrigin (records : List RR) (t : Nat) (ptr : RR) (c : Svc)
    (h : buildOne records t ptr = some c) : SrvOrigin records c := by
  simp only [buildOne] at h
  split at h
  · exact absurd h (by simp)
  · rename_i hguard
    have hc := Option.some.inj h
    have hmem : ∀ rr ∈ records.filter (fun rr =>
        (rr.isSRV || rr.isTXT) && dnsEqual rr.name ptr.ptrData), rr ∈ records :=
      fun rr hr => (List.mem_filter.mp hr).1
    have h0 := foldl_applySrvTxt_origin records _ hmem
      { subtypes := (records.filter (fun rr =>
          rr.isPTR && dnsEqual rr.ptrData ptr.ptrData && hasSubMarker rr.name)).map
          (fun rr => (serviceToType rr.name).subtype.getD ""),
        ttl := ptr.ttl, lastSeen := t } (Or.inl rfl)
    rcases h0 with h0 | h0
    · exact absurd (by simp [h0]) hguard
    · obtain ⟨rr, hrS, tg, pt, hre, hn, hf, hh, hp⟩ := h0
      exact ⟨rr, hrS, tg, pt, hre, by rw [← hc]; exact hn,
        by rw [← hc]; exact hf, by rw [← hc]; exact hh,
        by rw [← hc]; exact hp⟩

/-- C6: every candidate surfaced by `buildServicesFor` has its instance
name, fully-qualified name, host and port populated from an SRV record
present (with positive ttl) in the same packet; consequently a PTR-only or
TXT-only partial match without an SRV record yields no candidate. -/
theorem c6_candidates_require_srv (nm : String) (p : Packet) (t : Nat)
    (c : Svc) (hc : c ∈ buildServicesFor nm p t) :
    ∃ rr, rr ∈ p.answers ++ p.additionals ∧ 0 < rr.ttl ∧
      ∃ tg pt, rr.rdata = RData.srv tg pt ∧
        c.name = some (headLabel rr.name) ∧ c.fqdn = some rr.name ∧
        c.host = some tg ∧ c.port = some pt := by
  simp only [buildServicesFor] at hc
  obtain ⟨ptr, hptr, hbo⟩ := List.mem_filterMap.mp hc
  obtain ⟨rr, hrS, tg, pt, hre, hn, hf, hh, hp⟩ :=
    buildOne_srvOrigin _ _ _ _ hbo
  have hmem := List.mem_filter.mp hrS
  exact ⟨rr, hmem.1, by simpa using hmem.2, tg, pt, hre, hn, hf, hh, hp⟩

/-- C6 witness: the SRV record behind a concrete surfaced candidate. -/
theorem c6_candidates_require_srv_witness :
    ∃ rr, rr ∈ (Packet.mk [⟨"_http._tcp.local", 120,
          RData.ptr "a._http._tcp.local"⟩,
        ⟨"a._http._tcp.local", 120, RData.srv "h.local" 80⟩] []).answers ++
        (Packet.mk [⟨"_http._tcp.local", 120,
          RData.ptr "a._http._tcp.local"⟩,
        ⟨"a._http._tcp.local", 120, RData.srv "h.local" 80⟩] []).additionals ∧
      0 < rr.ttl ∧
      ∃ tg pt, rr.rdata = RData.srv tg pt ∧
        (⟨some "a", some "a._http._tcp.local", some "h.local", some 80,
          some "http", some "tcp", [], [], none, none, 120, 3⟩ : Svc).name =
          some (headLabel rr.name) ∧
        (⟨some "a", some "a._http._tcp.local", some "h.local", some 80,
          some "http", some "tcp", [], [], none, none, 120, 3⟩ : Svc).fqdn =
          some rr.name ∧
        (⟨some "a", some "a._http._tcp.local", some "h.local", some 80,
          some "http", some "tcp", [], [], none, none, 120, 3⟩ : Svc).host =
          some tg ∧
        (⟨some "a", some "a._http._tcp.local", some "h.local", some 80,
          some "http", some "tcp", [], [], none, none, 120, 3⟩ : Svc).port =
          some pt :=
  c6_candidates_require_srv "_http._tcp.local"
    (Packet.mk [⟨"_http._tcp.local", 120, RData.ptr "a._http._tcp.local"⟩,
      ⟨"a._http._tcp.local", 120, RData.srv "h.local" 80⟩] []) 3
    ⟨some "a", some "a._http._tcp.local", some "h.local", some 80,
     some "http", some "tcp", [], [], none, none, 120, 3⟩ (by decide)

/-- C9 witness: the scenario evaluated at a concrete non-empty stored TXT
mapping. -/
theorem c9_missing_txt_record_erases_txt_witness :
    ([(("a" : String), ("1" : String))] : TxtMap) ≠ [] ∧
    onresponse
      ⟨some "_http._tcp.local", false, none, true, ["_http._tcp.local"],
       ["box._http._tcp.local"],
       [⟨some "box", some "box._http._tcp.local", some "box.local", some 8000,
         some "http", some "tcp", [], [], some [("a", "1")], some [("a", "1")],
         120, 5⟩]⟩
      ⟨[⟨"_http._tcp.local", 120, RData.ptr "box._http._tcp.local"⟩,
        ⟨"box._http._tcp.local", 120, RData.srv "box.local" 8000⟩], []⟩ 77 =
    (⟨some "_http._tcp.local", false, none, true, ["_http._tcp.local"],
      ["box._http._tcp.local"],
      [⟨some "box", some "box._http._tcp.local", some "box.local", some 8000,
        some "http", some "tcp", [], [], none, none, 120, 77⟩]⟩,
     [Event.txtUpdate
        ⟨some "box", some "box._http._tcp.local", some "box.local", some 8000,
         some "http", some "tcp", [], [], none, none, 120, 77⟩
        ⟨some "box", some "box._http._tcp.local", some "box.local", some 8000,
         some "http", some "tcp", [], [], some [("a", "1")], some [("a", "1")],
         120, 77⟩],
     []) :=
  ⟨by decide, c9_missing_txt_record_erases_txt [("a", "1")] [("a", "1")] 5 77
    (by decide)⟩

end Bonjour
